import Mathlib

/-!
Shallow embedding of `src/get_mod_items.py` (Minecraft-Mod-Items-Fetcher).

The program is a scraper: search a wiki API for a mod's items, fetch item
details (text extract plus referenced image titles), resolve image URLs,
optionally download images, and persist the accumulated store to a JSON file.

Modelling conventions:
  * HTTP calls are oracles: an `Env` record carries the responses the network
    would return (`search`, `details`, `imageUrl`, `downloadOk`, `urlPath`,
    `hash`).  Each source function that performs one request is embedded as a
    pure function of the corresponding response.
  * Python strings are `String` (lists of characters); `str[:255]` is
    `List.take 255`; Python `ext in s` is contiguous-substring containment
    (`containsSub`); `str.replace(c, '_')` with a single-character needle is
    a character map.
  * The fetcher's mutable state (`self.data`, the counters, the persisted
    file) is an explicit `FetcherState`; `save_data` is modelled as recording
    the saved snapshot in the `file` field.
  * Items and images are processed in submission order; the claims settled
    here are insensitive to the completion order of the thread-pool futures.
-/

/-! ### Generic list helpers (Python substring containment) -/

/-- `beginsWith n h` decides whether `n` is a prefix of `h` (character lists). -/
def beginsWith : List Char → List Char → Bool
  | [], _ => true
  | _ :: _, [] => false
  | a :: as, b :: bs => a = b && beginsWith as bs

/-- `containsSub n h` decides whether `n` occurs as a contiguous substring of
`h`; this is Python's `n in h` on strings. -/
def containsSub (needle : List Char) : List Char → Bool
  | [] => beginsWith needle []
  | c :: rest => beginsWith needle (c :: rest) || containsSub needle rest

/-! ### Image-title filtering (process_mod, line 208)

Source: `any(ext in image_title.lower() for ext in ['.png', '.jpg', '.gif'])`.
-/

/-- The fixed extension list of `process_mod` line 208. -/
def raster_exts : List String := [".png", ".jpg", ".gif"]

/-- Python's `str.lower()` as a character-wise map.  (`Char.toLower` lowers
the ASCII range, which covers the extension characters the filter compares;
the titles' other characters are compared verbatim on both sides.) -/
def pyLower (s : String) : String := ⟨s.data.map Char.toLower⟩

/-- Embedding of the image-filter condition at `src/get_mod_items.py:208`:
keep `image_title` when some extension of `raster_exts` occurs as a substring
of the lowercased title. -/
def imageExtOk (image_title : String) : Bool :=
  raster_exts.any (fun ext => containsSub ext.data (pyLower image_title).data)

/-- Formalisation of the SPEC's words for the same filter (claim C1): keep a
title iff its lowercased form ENDS in one of the extensions.  Written from the
spec, to be compared against `imageExtOk`, which is written from the code. -/
def endsWithExt (image_title : String) : Bool :=
  raster_exts.any
    (fun ext => beginsWith ext.data.reverse (pyLower image_title).data.reverse)

/-! ### Data model (section 3 of the spec; records built in process_mod /
process_image) -/

/-- Image record as built at `src/get_mod_items.py:244-251`. -/
structure ImageRecord where
  name : String
  url : String
  localPath : String
deriving Repr, DecidableEq

/-- Item record as persisted (`src/get_mod_items.py:201-203`): only the image
list is retained. -/
structure ItemRecord where
  images : List ImageRecord
deriving Repr, DecidableEq

/-- Mod record (`src/get_mod_items.py:186-189`). -/
structure ModRecord where
  mod_name : String
  items : List ItemRecord
deriving Repr, DecidableEq

/-- The whole persisted store `{"mods": [...]}`. -/
structure Store where
  mods : List ModRecord
deriving Repr, DecidableEq

/-- Search result entry: the code only reads `item['title']`
(`src/get_mod_items.py:194`). -/
structure SearchResult where
  title : String
deriving Repr, DecidableEq

/-- The transient record returned by `get_item_details`
(`src/get_mod_items.py:134-138`). -/
structure ItemDetails where
  title : String
  description : String
  images : List String
deriving Repr, DecidableEq

/-! ### load_existing_data (src/get_mod_items.py:36-46) -/

/-- What the startup load can encounter: no file on disk, a read/parse that
raises (unreadable file or malformed JSON), or a successfully parsed store. -/
inductive LoadSource where
  | noFile : LoadSource
  | readError : LoadSource
  | loaded : Store → LoadSource
deriving Repr, DecidableEq

/-- Embedding of `load_existing_data`: the `try` body loads the parsed store
when the file exists, sets the empty store when it does not, and the `except`
arm sets the empty store on any raised error. -/
def load_existing_data : LoadSource → Store
  | .noFile => { mods := [] }
  | .readError => { mods := [] }
  | .loaded s => s

/-! ### sanitize_filename (src/get_mod_items.py:57-62) -/

/-- The characters of the source's `invalid_chars = '<>:"/\\|?*'`. -/
def invalid_chars : List Char := ['<', '>', ':', '"', '/', '\\', '|', '?', '*']

/-- One step of the loop body: Python's `filename.replace(char, '_')` for a
single-character needle replaces every occurrence, i.e. maps characters. -/
def replaceChar (c : Char) (s : List Char) : List Char :=
  s.map (fun x => if x = c then '_' else x)

/-- Embedding of `sanitize_filename`: replace each invalid character with an
underscore, then truncate to 255 characters (`filename[:255]`). -/
def sanitize_filename (filename : String) : String :=
  ⟨(invalid_chars.foldl (fun s c => replaceChar c s) filename.data).take 255⟩

/-! ### os.path.splitext (used at src/get_mod_items.py:73) -/

/-- Index of the last occurrence of `c` in `l`, as Python's `str.rfind`:
`-1` when absent. -/
def rfindChar (c : Char) (l : List Char) : Int :=
  match l.reverse.findIdx? (fun x => x = c) with
  | none => -1
  | some i => (l.length : Int) - 1 - (i : Int)

/-- Embedding of `os.path.splitext(p)[1]` (posix): the suffix of `p` starting
at the last dot, provided that dot lies inside the final path component and at
least one character of the component before it is not a dot. -/
def splitext_ext (p : String) : String :=
  let l := p.data
  let sepIndex := rfindChar '/' l
  let dotIndex := rfindChar '.' l
  if sepIndex < dotIndex then
    let base := (l.drop (sepIndex + 1).toNat).take (dotIndex - sepIndex - 1).toNat
    if base.any (fun ch => ch ≠ '.') then ⟨l.drop dotIndex.toNat⟩ else ""
  else ""

/-! ### Configuration and network oracles -/

/-- Constructor flag `download_images` (`src/get_mod_items.py:24-27`). -/
structure Config where
  download_images : Bool
deriving Repr, DecidableEq

/-- The images directory `self.images_dir` (`src/get_mod_items.py:28`). -/
def images_dir : String := "mod_items_data"

/-- Oracles standing for the network and runtime: what each HTTP request of a
run would yield.  `search name` is the parsed search list for a mod (empty on
any failure, as `get_mod_items` returns), `details t` the parsed detail record
for a page title (`none` on failure), `imageUrl t` the resolved image URL
(`none` on failure), `downloadOk url` whether the GET-and-write of
`download_image` succeeds, `urlPath url` is `urlparse(url).path`, and `hash`
is Python's `hash` on the URL string. -/
structure Env where
  search : String → List SearchResult
  details : String → Option ItemDetails
  imageUrl : String → Option String
  downloadOk : String → Bool
  urlPath : String → String
  hash : String → Int

/-! ### download_image (src/get_mod_items.py:64-89) -/

/-- The filename built at `src/get_mod_items.py:70-78`: the extension comes
from the URL path via `os.path.splitext`, defaulting to `.png` when empty,
and the name is `f"{item_name}_{hash(url)}{extension}"` sanitized. -/
def download_filename (env : Env) (url item_name : String) : String :=
  let extension := splitext_ext (env.urlPath url)
  let extension := if extension = "" then ".png" else extension
  sanitize_filename (item_name ++ "_" ++ toString (env.hash url) ++ extension)

/-- Embedding of `download_image`: on a successful GET and file write it
returns `os.path.join(images_dir, safe_name)` (the sanitized name never starts
with `/`, so the join is directory-slash-name); any exception yields `""`. -/
def download_image (env : Env) (url item_name : String) : String :=
  if env.downloadOk url then images_dir ++ "/" ++ download_filename env url item_name
  else ""

/-! ### process_image (src/get_mod_items.py:239-255) -/

/-- Embedding of `process_image`: resolve the image URL (`get_image_url`,
modelled by the `imageUrl` oracle, `none` on any failure); on success build
the record with `localPath = ""`, overwritten by `download_image`'s result
when downloading is enabled; a failed resolution (or exception) yields
`none`. -/
def process_image (cfg : Config) (env : Env) (image_title : String)
    (item_details : ItemDetails) : Option ImageRecord :=
  match env.imageUrl image_title with
  | none => none
  | some url =>
      if cfg.download_images then
        some { name := item_details.title, url := url,
               localPath := download_image env url item_details.title }
      else
        some { name := item_details.title, url := url, localPath := "" }

/-! ### Item assembly inside process_mod (src/get_mod_items.py:198-224) -/

/-- The per-item work of `process_mod` lines 201-217: filter the referenced
image titles by `imageExtOk`, process each surviving title, and keep the
successful results. -/
def process_item (cfg : Config) (env : Env) (d : ItemDetails) : ItemRecord :=
  { images := (d.images.filter imageExtOk).filterMap
      (fun t => process_image cfg env t d) }

/-- Accumulator for the loop over search results: the item records kept so
far, the number of processed items (`self.processed_count` increments), and
the number of failed detail fetches (`self.failed_count` increments). -/
structure FoldAcc where
  items : List ItemRecord
  ok : Nat
  failed : Nat
deriving Repr, DecidableEq

/-- One search result handled (`src/get_mod_items.py:198-224`): a failed
detail fetch counts as failed; an item with a non-empty image list is appended
and counted as processed; an item with an empty image list is dropped
silently. -/
def itemStep (cfg : Config) (env : Env) (acc : FoldAcc) (r : SearchResult) :
    FoldAcc :=
  match env.details r.title with
  | none => { acc with failed := acc.failed + 1 }
  | some d =>
      let it := process_item cfg env d
      if it.images.isEmpty then acc
      else { acc with items := acc.items ++ [it], ok := acc.ok + 1 }

/-- The whole item loop of `process_mod` over the search results. -/
def itemsFold (cfg : Config) (env : Env) (rs : List SearchResult) : FoldAcc :=
  rs.foldl (itemStep cfg env) ⟨[], 0, 0⟩

/-- The candidate mod record a task would append for `name`
(`src/get_mod_items.py:186-227`). -/
def newModRecord (cfg : Config) (env : Env) (name : String) : ModRecord :=
  { mod_name := name, items := (itemsFold cfg env (env.search name)).items }

/-! ### Fetcher state and process_mod (src/get_mod_items.py:169-237) -/

/-- The fetcher's mutable state: the in-memory store `self.data`, the two
counters, and the persisted file's content (`none` until the first
`save_data`; `some s` after a save wrote the serialization of `s`). -/
structure FetcherState where
  data : Store
  processed_count : Nat
  failed_count : Nat
  file : Option Store
deriving Repr, DecidableEq

/-- The duplicate check of `src/get_mod_items.py:175`:
`next((mod for mod in self.data['mods'] if mod['mod_name'] == mod_name), None)`. -/
def findMod (s : Store) (name : String) : Option ModRecord :=
  s.mods.find? (fun m => m.mod_name == name)

/-- Embedding of `process_mod` run to completion in isolation: skip (success)
when the name is already in the store; fail and count when the search yields
nothing; otherwise assemble the mod record, append it, bump the counters, and
persist the updated store (`save_data`). -/
def process_mod (cfg : Config) (env : Env) (st : FetcherState) (mod_name : String) :
    Bool × FetcherState :=
  match findMod st.data mod_name with
  | some _ => (true, st)
  | none =>
      match env.search mod_name with
      | [] => (false, { st with failed_count := st.failed_count + 1 })
      | _ :: _ =>
          let acc := itemsFold cfg env (env.search mod_name)
          let newStore : Store :=
            { mods := st.data.mods ++ [{ mod_name := mod_name, items := acc.items }] }
          (true, { data := newStore,
                   processed_count := st.processed_count + acc.ok,
                   failed_count := st.failed_count + acc.failed,
                   file := some newStore })

/-! ### get_mod_items: the search request (src/get_mod_items.py:91-114) -/

/-- The query parameters built at `src/get_mod_items.py:95-102` for the single
search request the function issues. -/
structure SearchParams where
  action : String
  format : String
  listParam : String
  srsearch : String
  srnamespace : String
  srlimit : String
deriving Repr, DecidableEq

/-- The parameters `get_mod_items` sends for `mod_name`:
`srsearch = f"{mod_name} items"`, namespace `"0"`, limit `"50"`. -/
def searchParams (mod_name : String) : SearchParams :=
  { action := "query", format := "json", listParam := "search",
    srsearch := mod_name ++ " items", srnamespace := "0", srlimit := "50" }

/-- Outcome of one HTTP request: a raised exception (network error, JSON
decode error) or a parsed body. -/
inductive ApiResult (α : Type) where
  | failure : ApiResult α
  | success : α → ApiResult α
deriving Repr, DecidableEq

/-- Parsed body of a search response as the code inspects it:
`data['query']['search']` when both keys are present (`none` models any
malformed shape missing them). -/
structure SearchData where
  query_search : Option (List SearchResult)
deriving Repr, DecidableEq

/-- Embedding of `get_mod_items`'s handling of the single response: return
`data['query']['search']` when present; fall through to `[]` on a malformed
body; the `except` arm also falls through to `[]` — the function never
raises. -/
def get_mod_items (resp : ApiResult SearchData) : List SearchResult :=
  match resp with
  | .failure => []
  | .success d =>
      match d.query_search with
      | some l => l
      | none => []

/-! ### get_item_details (src/get_mod_items.py:116-143) -/

/-- An entry of a page's `images` list; the code reads `img['title']`. -/
structure ImageRef where
  title : String
deriving Repr, DecidableEq

/-- One page object of the response, with the three optional keys the code
reads through `page.get` / `'images' in page`. -/
structure PageData where
  title : Option String
  extract : Option String
  images : Option (List ImageRef)
deriving Repr, DecidableEq

/-- Parsed body of a detail response: `data['query']['pages']` as a list of
page objects in iteration order (`none` models a shape where the key lookup
raises). -/
structure DetailsData where
  pages : Option (List PageData)
deriving Repr, DecidableEq

/-- Embedding of `get_item_details`: the loop over `pages` returns a record
for the first page (title, extract and image titles, each defaulted when
missing); an empty `pages` object falls through to `None`, and the `except`
arm (request failure, malformed body) returns `None`. -/
def get_item_details (resp : ApiResult DetailsData) : Option ItemDetails :=
  match resp with
  | .failure => none
  | .success d =>
      match d.pages with
      | none => none
      | some [] => none
      | some (p :: _) =>
          some { title := p.title.getD "",
                 description := p.extract.getD "",
                 images := (p.images.getD []).map (fun img => img.title) }

/-! ### Two concurrent process_mod tasks (claim C3)

`main` submits one `process_mod` task per listed mod name to a thread pool
(`src/get_mod_items.py:296-297`).  Within one task, the duplicate check
(line 175) and the append to the shared store (line 227) are separate steps
with no lock between them, so steps of two tasks for the same name may
interleave.  `taskStep` makes exactly these two store accesses atomic steps
of a task; everything between them (search, item assembly) touches no shared
store state and is folded into the second step. -/

/-- Progress of one `process_mod` task: `pc = 0` before the duplicate check,
`pc = 1` after it (`sawAbsent` records what it observed), `pc = 2` done. -/
structure ModTask where
  pc : Nat
  sawAbsent : Bool
deriving Repr, DecidableEq

/-- One atomic step of a `process_mod` task against the shared store. -/
def taskStep (cfg : Config) (env : Env) (name : String) (store : Store)
    (t : ModTask) : Store × ModTask :=
  if t.pc = 0 then
    (store, { pc := 1, sawAbsent := (findMod store name).isNone })
  else if t.pc = 1 then
    (if t.sawAbsent && !(env.search name).isEmpty then
       { mods := store.mods ++ [newModRecord cfg env name] }
     else store,
     { t with pc := 2 })
  else (store, t)

/-- Run two tasks for the same mod name under a schedule: each entry picks the
task that takes its next step. -/
def runSched (cfg : Config) (env : Env) (name : String) :
    List (Fin 2) → Store → ModTask → ModTask → Store × ModTask × ModTask
  | [], store, t0, t1 => (store, t0, t1)
  | i :: rest, store, t0, t1 =>
      if i = 0 then
        let s := taskStep cfg env name store t0
        runSched cfg env name rest s.1 s.2 t1
      else
        let s := taskStep cfg env name store t1
        runSched cfg env name rest s.1 t0 s.2

/-- Number of records for `name` in the store. -/
def countName (s : Store) (name : String) : Nat :=
  (s.mods.filter (fun m => m.mod_name == name)).length

/-- The store invariant of section 3 of the spec: mod names are unique. -/
def uniqueNames (s : Store) : Prop :=
  s.mods.Pairwise (fun a b => a.mod_name ≠ b.mod_name)

instance (s : Store) : Decidable (uniqueNames s) := by
  unfold uniqueNames; infer_instance

/-! ### Remaining definitions: the per-result keep function and concrete
fixtures used by the witnesses. -/

/-- What one search result contributes to the persisted item list of its mod:
`none` when the detail fetch failed or no image survived, `some` of the
assembled item record otherwise (`src/get_mod_items.py:198-220`). -/
def keptItem (cfg : Config) (env : Env) (r : SearchResult) : Option ItemRecord :=
  match env.details r.title with
  | none => none
  | some d =>
      let it := process_item cfg env d
      if it.images.isEmpty then none else some it

/-- Fixture: downloading disabled. -/
def cfg0 : Config := { download_images := false }

/-- Fixture: downloading enabled. -/
def cfgDl : Config := { download_images := true }

/-- Fixture environment: the search finds one candidate page, every detail
fetch fails, every image resolution fails. -/
def env0 : Env :=
  { search := fun _ => [{ title := "I" }],
    details := fun _ => none,
    imageUrl := fun _ => none,
    downloadOk := fun _ => false,
    urlPath := fun u => u,
    hash := fun _ => 0 }

/-- Fixture environment: the search returns nothing. -/
def envEmpty : Env :=
  { search := fun _ => [],
    details := fun _ => none,
    imageUrl := fun _ => none,
    downloadOk := fun _ => false,
    urlPath := fun u => u,
    hash := fun _ => 0 }

/-- Fixture environment: one candidate page, its details carry one qualifying
image title, the image resolves, but the download fails. -/
def envRes : Env :=
  { search := fun _ => [{ title := "Apple" }],
    details := fun _ => some { title := "Apple", description := "d",
                               images := ["File:Apple.png"] },
    imageUrl := fun _ => some "https://img.example/Apple.png",
    downloadOk := fun _ => false,
    urlPath := fun _ => "/Apple.png",
    hash := fun _ => 7 }

/-- Fixture: the empty fetcher state (fresh store, nothing persisted). -/
def stEmpty : FetcherState :=
  { data := { mods := [] }, processed_count := 0, failed_count := 0, file := none }

/-- Fixture: a state whose store already holds a record for `"AppleSkin"`. -/
def stPresent : FetcherState :=
  { data := { mods := [{ mod_name := "AppleSkin", items := [] }] },
    processed_count := 0, failed_count := 0, file := none }

/-- Fixture details record with one qualifying image title. -/
def dApple : ItemDetails :=
  { title := "Apple", description := "d", images := ["File:Apple.png"] }

/-! ### Helper lemmas -/

theorem beginsWith_iff (n h : List Char) :
    beginsWith n h = true ↔ ∃ r, h = n ++ r := by
  induction n generalizing h with
  | nil => simp [beginsWith]
  | cons a as ih =>
    cases h with
    | nil =>
      simp [beginsWith]
    | cons b bs =>
      simp only [beginsWith, Bool.and_eq_true, decide_eq_true_eq, ih]
      constructor
      · rintro ⟨rfl, r, rfl⟩
        exact ⟨r, rfl⟩
      · rintro ⟨r, hr⟩
        cases hr
        exact ⟨rfl, r, rfl⟩

theorem containsSub_iff (n h : List Char) :
    containsSub n h = true ↔ ∃ l r, h = l ++ n ++ r := by
  induction h with
  | nil =>
    simp only [containsSub, beginsWith_iff]
    constructor
    · rintro ⟨r, hr⟩
      exact ⟨[], r, hr⟩
    · rintro ⟨l, r, hr⟩
      refine ⟨r, ?_⟩
      have hl : l = [] := by
        cases l with
        | nil => rfl
        | cons x xs => simp at hr
      subst hl
      simpa using hr
  | cons c rest ih =>
    simp only [containsSub, Bool.or_eq_true, beginsWith_iff, ih]
    constructor
    · rintro (⟨r, hr⟩ | ⟨l, r, hr⟩)
      · exact ⟨[], r, by simpa using hr⟩
      · exact ⟨c :: l, r, by simp [hr]⟩
    · rintro ⟨l, r, hr⟩
      cases l with
      | nil =>
        exact Or.inl ⟨r, by simpa using hr⟩
      | cons x xs =>
        simp only [List.cons_append, List.cons.injEq] at hr
        exact Or.inr ⟨xs, r, by simp [hr.2]⟩

theorem process_image_isSome (cfg : Config) (env : Env) (t : String)
    (d : ItemDetails) :
    (process_image cfg env t d).isSome = (env.imageUrl t).isSome := by
  cases h : env.imageUrl t with
  | none => simp [process_image, h]
  | some url =>
    cases hd : cfg.download_images <;> simp [process_image, h, hd]

theorem images_dir_join_ne_empty (s : String) : images_dir ++ "/" ++ s ≠ "" := by
  intro h
  have hlen := congrArg String.length h
  simp [String.length_append, images_dir] at hlen
  exact absurd hlen.1 (by decide)

theorem itemsFold_go (cfg : Config) (env : Env) (rs : List SearchResult)
    (acc : FoldAcc) :
    (rs.foldl (itemStep cfg env) acc).items
      = acc.items ++ rs.filterMap (keptItem cfg env) := by
  induction rs generalizing acc with
  | nil => simp
  | cons r rest ih =>
    simp only [List.foldl_cons, List.filterMap_cons, ih]
    cases hr : env.details r.title with
    | none => simp [itemStep, keptItem, hr]
    | some d =>
      by_cases hi : (process_item cfg env d).images.isEmpty
      · simp [itemStep, keptItem, hr, hi]
      · simp [itemStep, keptItem, hr, hi]

theorem itemsFold_items (cfg : Config) (env : Env) (rs : List SearchResult) :
    (itemsFold cfg env rs).items = rs.filterMap (keptItem cfg env) := by
  simpa [itemsFold] using itemsFold_go cfg env rs ⟨[], 0, 0⟩

theorem keptItem_images_ne_nil (cfg : Config) (env : Env) (r : SearchResult)
    (it : ItemRecord) (h : keptItem cfg env r = some it) : it.images ≠ [] := by
  unfold keptItem at h
  cases hr : env.details r.title with
  | none => simp [hr] at h
  | some d =>
    simp only [hr] at h
    by_cases hi : (process_item cfg env d).images.isEmpty
    · simp [hi] at h
    · simp only [hi, if_false] at h
      cases h
      simpa [List.isEmpty_iff] using hi

theorem process_mod_of_existing (cfg : Config) (env : Env) (st : FetcherState)
    (name : String) (h : (findMod st.data name).isSome = true) :
    process_mod cfg env st name = (true, st) := by
  cases hf : findMod st.data name with
  | none => simp [hf] at h
  | some m => simp [process_mod, hf]

theorem process_mod_of_no_results (cfg : Config) (env : Env) (st : FetcherState)
    (name : String) (h1 : findMod st.data name = none)
    (h2 : env.search name = []) :
    process_mod cfg env st name
      = (false, { st with failed_count := st.failed_count + 1 }) := by
  simp [process_mod, h1, h2]

theorem process_mod_of_new (cfg : Config) (env : Env) (st : FetcherState)
    (name : String) (r : SearchResult) (rs : List SearchResult)
    (h1 : findMod st.data name = none) (h2 : env.search name = r :: rs) :
    process_mod cfg env st name
      = (true,
         { data := { mods := st.data.mods ++ [newModRecord cfg env name] },
           processed_count :=
             st.processed_count + (itemsFold cfg env (env.search name)).ok,
           failed_count :=
             st.failed_count + (itemsFold cfg env (env.search name)).failed,
           file := some { mods := st.data.mods ++ [newModRecord cfg env name] } }) := by
  simp [process_mod, h1, h2, newModRecord]

theorem findMod_none_iff (s : Store) (name : String) :
    findMod s name = none ↔ ∀ m ∈ s.mods, m.mod_name ≠ name := by
  simp [findMod, List.find?_eq_none]

theorem process_mod_preserves_unique (cfg : Config) (env : Env)
    (st : FetcherState) (name : String) (h : uniqueNames st.data) :
    uniqueNames (process_mod cfg env st name).2.data := by
  cases hf : findMod st.data name with
  | some m =>
    rw [process_mod_of_existing cfg env st name (by simp [hf])]
    exact h
  | none =>
    cases hs : env.search name with
    | nil =>
      rw [process_mod_of_no_results cfg env st name hf hs]
      exact h
    | cons r rs =>
      rw [process_mod_of_new cfg env st name r rs hf hs]
      have habs : ∀ m ∈ st.data.mods, m.mod_name ≠ name :=
        (findMod_none_iff st.data name).mp hf
      refine List.pairwise_append.mpr ⟨h, ?_, ?_⟩
      · simp [uniqueNames]
      · intro a ha b hb
        simp only [List.mem_singleton] at hb
        subst hb
        simpa [newModRecord] using habs a ha

theorem pairwise_filter_name_len_le_one (name : String) (l : List ModRecord)
    (h : l.Pairwise (fun a b => a.mod_name ≠ b.mod_name)) :
    (l.filter (fun m => m.mod_name == name)).length ≤ 1 := by
  induction l with
  | nil => simp
  | cons m rest ih =>
    rcases List.pairwise_cons.mp h with ⟨hm, hrest⟩
    by_cases hmn : m.mod_name = name
    · have hempty : rest.filter (fun x => x.mod_name == name) = [] := by
        refine List.filter_eq_nil_iff.mpr ?_
        intro b hb
        have : m.mod_name ≠ b.mod_name := hm b hb
        simp only [beq_iff_eq]
        intro hbn
        exact this (hmn.trans hbn.symm)
      simp [List.filter_cons, hmn, hempty]
    · simpa [List.filter_cons, hmn] using ih hrest

theorem unique_countName_le_one (s : Store) (name : String)
    (h : uniqueNames s) : countName s name ≤ 1 :=
  pairwise_filter_name_len_le_one name s.mods h

theorem scrub_mem (cs : List Char) (s : List Char) (x : Char)
    (h : x ∈ cs.foldl (fun a c => replaceChar c a) s) :
    (x ∈ s ∧ x ∉ cs) ∨ x = '_' := by
  induction cs generalizing s with
  | nil =>
    exact Or.inl ⟨by simpa using h, by simp⟩
  | cons c cs' ih =>
    simp only [List.foldl_cons] at h
    rcases ih (replaceChar c s) h with ⟨hin, hnot⟩ | heq
    · rcases List.mem_map.mp hin with ⟨y, hy, hmap⟩
      by_cases hyc : y = c
      · subst hyc
        simp only [if_pos rfl] at hmap
        exact Or.inr hmap.symm
      · simp only [if_neg hyc] at hmap
        subst hmap
        refine Or.inl ⟨hy, ?_⟩
        simp only [List.mem_cons, not_or]
        exact ⟨hyc, hnot⟩
    · exact Or.inr heq

theorem sanitize_filename_no_invalid (fn : String) :
    ∀ c ∈ (sanitize_filename fn).data, c ∉ invalid_chars := by
  intro c hc hinv
  have hc' : c ∈ invalid_chars.foldl (fun s ch => replaceChar ch s) fn.data :=
    List.mem_of_mem_take (by simpa [sanitize_filename] using hc)
  rcases scrub_mem invalid_chars fn.data c hc' with ⟨_, hnot⟩ | heq
  · exact hnot hinv
  · subst heq
    simp [invalid_chars] at hinv

theorem sanitize_filename_length_le (fn : String) :
    (sanitize_filename fn).length ≤ 255 := by
  have : (sanitize_filename fn).length
      = ((invalid_chars.foldl (fun s ch => replaceChar ch s) fn.data).take 255).length := rfl
  rw [this, List.length_take]
  exact Nat.min_le_left _ _

/-! ### Claim theorems -/

/-- C1 (amended): the image-filtering step of `process_mod` keeps a referenced
image title iff the lowercased title CONTAINS one of ".png", ".jpg", ".gif"
as a contiguous substring — not necessarily as its suffix. -/
theorem C1_image_filter_keeps_iff_substring (t : String) :
    imageExtOk t = true ↔
      ∃ ext ∈ raster_exts, ∃ l r, (pyLower t).data = l ++ ext.data ++ r := by
  simp [imageExtOk, List.any_eq_true, containsSub_iff]

/-- C1 counterexample to the claim as stated: the title `"Foo.png.svg"` does
not end in png, jpg or gif (case-insensitively), yet the filter keeps it,
because `".png"` occurs in the middle. -/
theorem C1_counterexample :
    imageExtOk "Foo.png.svg" = true ∧ endsWithExt "Foo.png.svg" = false := by
  constructor
  · decide
  · decide

/-- C1 witness: the amended statement evaluated at the kept title
`"Grid.PNG"`. -/
theorem C1_witness :
    imageExtOk "Grid.PNG" = true ↔
      ∃ ext ∈ raster_exts, ∃ l r, (pyLower "Grid.PNG").data = l ++ ext.data ++ r :=
  C1_image_filter_keeps_iff_substring "Grid.PNG"

/-- C2 (confirmed): for a mod name that already has a record in the store,
`process_mod` returns success and the whole fetcher state — store, counters,
persisted file — is returned unchanged: no further stage runs and nothing is
re-persisted, so the stored bytes are untouched. -/
theorem C2_already_present_noop (cfg : Config) (env : Env) (st : FetcherState)
    (name : String) (h : (findMod st.data name).isSome = true) :
    process_mod cfg env st name = (true, st) :=
  process_mod_of_existing cfg env st name h

/-- C2 witness: a store already holding `"AppleSkin"` is returned unchanged. -/
theorem C2_witness :
    (findMod stPresent.data "AppleSkin").isSome = true ∧
    process_mod cfg0 env0 stPresent "AppleSkin" = (true, stPresent) :=
  ⟨by decide, C2_already_present_noop cfg0 env0 stPresent "AppleSkin" (by decide)⟩

/-- C3 counterexample to the claim as stated: two concurrent `process_mod`
tasks for the same name `"M"` on the empty store, interleaved so that both
run the duplicate check (line 175) before either appends (line 227), leave
TWO records named `"M"` in the final store. -/
theorem C3_counterexample :
    countName (runSched cfg0 env0 "M" [0, 1, 0, 1] { mods := [] }
        { pc := 0, sawAbsent := false } { pc := 0, sawAbsent := false }).1 "M" = 2
    ∧ ¬ uniqueNames (runSched cfg0 env0 "M" [0, 1, 0, 1] { mods := [] }
        { pc := 0, sawAbsent := false } { pc := 0, sawAbsent := false }).1 := by
  constructor
  · decide
  · decide

/-- C3 (amended): under sequential execution — each `process_mod` call running
its duplicate check and append without interleaving — uniqueness of mod names
is preserved by every call, and after submitting the same name twice in
sequence the store holds at most one record for that name. -/
theorem C3_sequential_names_unique (cfg : Config) (env : Env)
    (st : FetcherState) (name : String) (h : uniqueNames st.data) :
    uniqueNames (process_mod cfg env st name).2.data ∧
    uniqueNames (process_mod cfg env (process_mod cfg env st name).2 name).2.data ∧
    countName (process_mod cfg env (process_mod cfg env st name).2 name).2.data name ≤ 1 := by
  have h1 := process_mod_preserves_unique cfg env st name h
  have h2 := process_mod_preserves_unique cfg env (process_mod cfg env st name).2 name h1
  exact ⟨h1, h2, unique_countName_le_one _ name h2⟩

/-- C3 witness: the sequential double submission of `"M"` on the empty
store. -/
theorem C3_witness :
    uniqueNames stEmpty.data ∧
    (uniqueNames (process_mod cfg0 env0 stEmpty "M").2.data ∧
     uniqueNames (process_mod cfg0 env0 (process_mod cfg0 env0 stEmpty "M").2 "M").2.data ∧
     countName (process_mod cfg0 env0 (process_mod cfg0 env0 stEmpty "M").2 "M").2.data "M" ≤ 1) :=
  ⟨by decide, C3_sequential_names_unique cfg0 env0 stEmpty "M" (by decide)⟩

/-- C4 (confirmed): when the name is not yet stored and the search stage
yields zero results, `process_mod` returns failure and increments the failed
counter; the store and the persisted file are exactly those of the input
state — no entry is added and nothing is re-persisted. -/
theorem C4_empty_search_fails (cfg : Config) (env : Env) (st : FetcherState)
    (name : String) (h1 : findMod st.data name = none)
    (h2 : env.search name = []) :
    process_mod cfg env st name
      = (false, { st with failed_count := st.failed_count + 1 }) :=
  process_mod_of_no_results cfg env st name h1 h2

/-- C4 witness: the empty-search environment on the fresh state. -/
theorem C4_witness :
    findMod stEmpty.data "M" = none ∧ envEmpty.search "M" = [] ∧
    process_mod cfg0 envEmpty stEmpty "M"
      = (false, { stEmpty with failed_count := stEmpty.failed_count + 1 }) :=
  ⟨by decide, rfl, C4_empty_search_fails cfg0 envEmpty stEmpty "M" (by decide) rfl⟩

/-- C5 (confirmed): an item record enters a mod's persisted item list iff at
least one of its referenced images passes the extension filter and resolves
to a URL: `process_item` yields a non-empty image list exactly then, the item
loop keeps exactly the items whose assembled record is non-empty
(`keptItem`), and every item record the loop keeps has a non-empty image
list — so an item whose every image fails resolution, or that has no
qualifying image, is absent. -/
theorem C5_item_kept_iff_image_resolved (cfg : Config) (env : Env)
    (rs : List SearchResult) (d : ItemDetails) :
    ((process_item cfg env d).images ≠ [] ↔
      ∃ t ∈ d.images, imageExtOk t = true ∧ (env.imageUrl t).isSome = true) ∧
    (itemsFold cfg env rs).items = rs.filterMap (keptItem cfg env) ∧
    ∀ it ∈ (itemsFold cfg env rs).items, it.images ≠ [] := by
  refine ⟨?_, itemsFold_items cfg env rs, ?_⟩
  · constructor
    · intro hne
      have : ¬ ∀ a ∈ d.images.filter imageExtOk, process_image cfg env a d = none := by
        intro hall
        exact hne (by simpa [process_item] using List.filterMap_eq_nil_iff.mpr hall)
      push_neg at this
      rcases this with ⟨a, ha, hnone⟩
      rcases List.mem_filter.mp ha with ⟨hmem, hok⟩
      refine ⟨a, hmem, hok, ?_⟩
      rw [← process_image_isSome cfg env a d]
      exact Option.isSome_iff_ne_none.mpr hnone
    · rintro ⟨t, hmem, hok, hres⟩
      intro hnil
      have hnil' : (d.images.filter imageExtOk).filterMap
          (fun a => process_image cfg env a d) = [] := by
        simpa [process_item] using hnil
      have := List.filterMap_eq_nil_iff.mp hnil' t (List.mem_filter.mpr ⟨hmem, hok⟩)
      rw [← process_image_isSome cfg env t d] at hres
      simp [this] at hres
  · intro it hit
    rw [itemsFold_items cfg env rs] at hit
    rcases List.mem_filterMap.mp hit with ⟨r, _, hk⟩
    exact keptItem_images_ne_nil cfg env r it hk

/-- C5 witness: the resolving environment on a one-item search. -/
theorem C5_witness :
    ((process_item cfg0 envRes dApple).images ≠ [] ↔
      ∃ t ∈ dApple.images, imageExtOk t = true ∧ (envRes.imageUrl t).isSome = true) ∧
    (itemsFold cfg0 envRes [{ title := "Apple" }]).items
      = [{ title := "Apple" }].filterMap (keptItem cfg0 envRes) ∧
    ∀ it ∈ (itemsFold cfg0 envRes [{ title := "Apple" }]).items, it.images ≠ [] :=
  C5_item_kept_iff_image_resolved cfg0 envRes [{ title := "Apple" }] dApple

/-- C6 (confirmed): for every image record `process_image` produces, the
`localPath` is non-empty iff downloading was requested and the download
succeeded; with downloading disabled the `localPath` is always `""`; and on a
download failure the record is still produced, carrying the resolved remote
URL, the parent item's title, and an empty `localPath`. -/
theorem C6_localPath_iff_download (cfg : Config) (env : Env) (t : String)
    (d : ItemDetails) (it : ImageRecord)
    (h : process_image cfg env t d = some it) :
    (it.localPath ≠ "" ↔ (cfg.download_images = true ∧ env.downloadOk it.url = true)) ∧
    (cfg.download_images = false → it.localPath = "") ∧
    (env.downloadOk it.url = false →
      it.localPath = "" ∧ env.imageUrl t = some it.url ∧ it.name = d.title) := by
  cases hu : env.imageUrl t with
  | none => simp [process_image, hu] at h
  | some url =>
    cases hd : cfg.download_images with
    | false =>
      have h' : ({ name := d.title, url := url, localPath := "" } : ImageRecord) = it := by
        have := h
        simp only [process_image, hu, hd, Bool.false_eq_true, if_false,
          Option.some.injEq] at this
        exact this
      subst h'
      simp [hd, hu]
    | true =>
      have h' : ({ name := d.title, url := url,
                   localPath := download_image env url d.title } : ImageRecord) = it := by
        have := h
        simp only [process_image, hu, hd, if_true, Option.some.injEq] at this
        exact this
      subst h'
      cases hk : env.downloadOk url with
      | false => simp [download_image, hd, hu, hk]
      | true =>
        refine ⟨?_, ?_, ?_⟩
        · simp only [download_image, hk, if_true, hd, true_and, iff_true]
          exact images_dir_join_ne_empty _
        · intro hcontr
          exact Bool.noConfusion hcontr
        · intro hcontr
          exact Bool.noConfusion hcontr

/-- C6 witness: downloading enabled, resolution succeeds, the download fails —
the record is kept with its remote URL and an empty `localPath`. -/
theorem C6_witness :
    process_image cfgDl envRes "File:Apple.png" dApple
      = some { name := "Apple", url := "https://img.example/Apple.png",
               localPath := "" } ∧
    ((({ name := "Apple", url := "https://img.example/Apple.png",
         localPath := "" } : ImageRecord).localPath ≠ ""
        ↔ (cfgDl.download_images = true ∧
           envRes.downloadOk "https://img.example/Apple.png" = true)) ∧
     (cfgDl.download_images = false →
        ({ name := "Apple", url := "https://img.example/Apple.png",
           localPath := "" } : ImageRecord).localPath = "") ∧
     (envRes.downloadOk "https://img.example/Apple.png" = false →
        ({ name := "Apple", url := "https://img.example/Apple.png",
           localPath := "" } : ImageRecord).localPath = "" ∧
        envRes.imageUrl "File:Apple.png" = some "https://img.example/Apple.png" ∧
        ({ name := "Apple", url := "https://img.example/Apple.png",
           localPath := "" } : ImageRecord).name = dApple.title)) :=
  ⟨rfl, C6_localPath_iff_download cfgDl envRes "File:Apple.png" dApple
     { name := "Apple", url := "https://img.example/Apple.png", localPath := "" }
     rfl⟩

/-- C7 (confirmed): `sanitize_filename` yields a string free of every
character of `<>:"/\\|?*` and of length at most 255; and the download stage's
local filename is the sanitization of the item title, an underscore, the hash
of the URL, and the URL path's extension — `.png` when the path has none. -/
theorem C7_sanitize_and_filename (fn : String) (env : Env) (url nm : String) :
    (∀ c ∈ (sanitize_filename fn).data, c ∉ invalid_chars) ∧
    (sanitize_filename fn).length ≤ 255 ∧
    download_filename env url nm
      = sanitize_filename (nm ++ "_" ++ toString (env.hash url) ++
          (if splitext_ext (env.urlPath url) = "" then ".png"
           else splitext_ext (env.urlPath url))) :=
  ⟨sanitize_filename_no_invalid fn, sanitize_filename_length_le fn, rfl⟩

/-- C7 witness: a title containing every invalid character, and an URL whose
path has no extension (so the `.png` default applies). -/
theorem C7_witness :
    (∀ c ∈ (sanitize_filename "a<b>c:d\"e/f\\g|h?i*j").data, c ∉ invalid_chars) ∧
    (sanitize_filename "a<b>c:d\"e/f\\g|h?i*j").length ≤ 255 ∧
    download_filename env0 "https://img.example/apple" "Apple"
      = sanitize_filename ("Apple" ++ "_" ++
          toString (env0.hash "https://img.example/apple") ++
          (if splitext_ext (env0.urlPath "https://img.example/apple") = ""
           then ".png"
           else splitext_ext (env0.urlPath "https://img.example/apple"))) :=
  C7_sanitize_and_filename "a<b>c:d\"e/f\\g|h?i*j" env0
    "https://img.example/apple" "Apple"

/-- C8 (confirmed): the single search request of `get_mod_items` carries the
query text `mod_name` followed by the literal word `items`, namespace `0` and
limit `50`; the function returns the parsed result list on success and the
empty list on a malformed response or a raised error — it never raises. -/
theorem C8_search_query_and_fallback (name : String) (l : List SearchResult) :
    (searchParams name).srsearch = name ++ " items" ∧
    (searchParams name).srnamespace = "0" ∧
    (searchParams name).srlimit = "50" ∧
    get_mod_items (ApiResult.success { query_search := some l }) = l ∧
    get_mod_items (ApiResult.success { query_search := none }) = [] ∧
    get_mod_items (ApiResult.failure : ApiResult SearchData) = [] :=
  ⟨rfl, rfl, rfl, rfl, rfl, rfl⟩

/-- C9 (confirmed): `get_item_details` returns the record — title, extract,
referenced image titles, each defaulted when the key is missing — built from
the first page of a successful response, and returns `none` when the response
carries no page or the request fails. -/
theorem C9_detail_record_or_none (p : PageData) (ps : List PageData) :
    get_item_details (ApiResult.success { pages := some (p :: ps) })
      = some { title := p.title.getD "", description := p.extract.getD "",
               images := (p.images.getD []).map (fun img => img.title) } ∧
    get_item_details (ApiResult.success { pages := some [] }) = none ∧
    get_item_details (ApiResult.success { pages := none }) = none ∧
    get_item_details (ApiResult.failure : ApiResult DetailsData) = none :=
  ⟨rfl, rfl, rfl, rfl⟩

/-- C10 (confirmed): a failed load — unreadable file or malformed JSON —
falls back to the empty store, identical to the no-file case, so a corrupted
cache is discarded in memory (and the next successful persist overwrites the
file); a successful parse is kept as is. -/
theorem C10_load_error_falls_back_empty :
    load_existing_data LoadSource.readError = { mods := [] } ∧
    load_existing_data LoadSource.readError = load_existing_data LoadSource.noFile ∧
    ∀ s, load_existing_data (LoadSource.loaded s) = s :=
  ⟨rfl, rfl, fun _ => rfl⟩
